import Mathlib

/-!
Verification of the arshin units-of-measure library against its specification.

The Rust sources are embedded shallowly:
* `i32` exponents (`FundamentalsPowersType`) are modelled as unbounded `Int`;
  the one machine-integer effect the code depends on, the `power as i32`
  truncating cast inside `Dimension::pow`, is modelled explicitly by
  `wrapToI32`.
* `f64` scalars (scales, offsets, magnitudes, prefix factors) are modelled as
  exact rationals `ℚ`; the claims under scrutiny concern which expressions the
  code computes, not floating-point rounding.
* Rust panics (`panic!`, `unreachable!`, `Result::unwrap` on an `Err`) are
  modelled as an explicit `panicked` outcome, kept distinct from returned
  `Result` error values (`fails`).
-/

namespace Arshin

/-! ## fundamentals.rs: the dimension vector -/

/-- The ten-exponent dimension vector of `fundamentals.rs`
(`Dimension([FundamentalsPowersType; 10])`), with one named field per
fundamental axis, in the source's index order (count last). -/
structure Dimension where
  mass : Int
  length : Int
  time : Int
  current : Int
  temperature : Int
  amountOfSubstance : Int
  luminousIntensity : Int
  angle : Int
  bit : Int
  count : Int
deriving DecidableEq, Repr

/-- The test `powers[..9] == [0; 9]` of `Dimension::new`: the nine non-count
exponents are all zero. -/
def firstNineZero (d : Dimension) : Prop :=
  d.mass = 0 ∧ d.length = 0 ∧ d.time = 0 ∧ d.current = 0 ∧ d.temperature = 0 ∧
    d.amountOfSubstance = 0 ∧ d.luminousIntensity = 0 ∧ d.angle = 0 ∧ d.bit = 0

instance (d : Dimension) : Decidable (firstNineZero d) := by
  unfold firstNineZero; infer_instance

/-- `Dimension::new`: canonicalizing constructor.  If the nine non-count
exponents are all zero the result is the dimensionless vector (count = 1);
otherwise the nine exponents are kept and count is forced to 0. -/
def Dimension.new (p : Dimension) : Dimension :=
  if firstNineZero p then ⟨0, 0, 0, 0, 0, 0, 0, 0, 0, 1⟩
  else { p with count := 0 }

/-- `Dimension::mul`: elementwise sum, then the canonicalization of `new`. -/
def Dimension.mul (a b : Dimension) : Dimension :=
  Dimension.new ⟨a.mass + b.mass, a.length + b.length, a.time + b.time,
    a.current + b.current, a.temperature + b.temperature,
    a.amountOfSubstance + b.amountOfSubstance,
    a.luminousIntensity + b.luminousIntensity, a.angle + b.angle,
    a.bit + b.bit, a.count + b.count⟩

/-- `Dimension::div`: elementwise difference, then the canonicalization of
`new`. -/
def Dimension.div (a b : Dimension) : Dimension :=
  Dimension.new ⟨a.mass - b.mass, a.length - b.length, a.time - b.time,
    a.current - b.current, a.temperature - b.temperature,
    a.amountOfSubstance - b.amountOfSubstance,
    a.luminousIntensity - b.luminousIntensity, a.angle - b.angle,
    a.bit - b.bit, a.count - b.count⟩

/-- The Rust cast `power as i32` applied to an `i64`: two's-complement
truncation to 32 bits (reduce modulo `2^32` into `[-2^31, 2^31)`). -/
def wrapToI32 (n : Int) : Int :=
  (n + 2 ^ 31) % 2 ^ 32 - 2 ^ 31

/-- `Dimension::pow`: every exponent is multiplied by `power as i32`
(the truncated 64-bit argument), then the canonicalization of `new`. -/
def Dimension.pow (a : Dimension) (power : Int) : Dimension :=
  Dimension.new ⟨a.mass * wrapToI32 power, a.length * wrapToI32 power,
    a.time * wrapToI32 power, a.current * wrapToI32 power,
    a.temperature * wrapToI32 power, a.amountOfSubstance * wrapToI32 power,
    a.luminousIntensity * wrapToI32 power, a.angle * wrapToI32 power,
    a.bit * wrapToI32 power, a.count * wrapToI32 power⟩

/-! The base dimensions of `fundamentals::base`
(`Dimension::new_from_fundamental` writes a single 1 directly). -/

def MASS : Dimension := ⟨1, 0, 0, 0, 0, 0, 0, 0, 0, 0⟩
def LENGTH : Dimension := ⟨0, 1, 0, 0, 0, 0, 0, 0, 0, 0⟩
def TIME : Dimension := ⟨0, 0, 1, 0, 0, 0, 0, 0, 0, 0⟩
def CURRENT : Dimension := ⟨0, 0, 0, 1, 0, 0, 0, 0, 0, 0⟩
def TEMPERATURE : Dimension := ⟨0, 0, 0, 0, 1, 0, 0, 0, 0, 0⟩
def AMOUNT_OF_SUBSTANCE : Dimension := ⟨0, 0, 0, 0, 0, 1, 0, 0, 0, 0⟩
def LUMINOUS_INTENSITY : Dimension := ⟨0, 0, 0, 0, 0, 0, 1, 0, 0, 0⟩
def ANGLE : Dimension := ⟨0, 0, 0, 0, 0, 0, 0, 1, 0, 0⟩
def BIT : Dimension := ⟨0, 0, 0, 0, 0, 0, 0, 0, 1, 0⟩
def COUNT : Dimension := ⟨0, 0, 0, 0, 0, 0, 0, 0, 0, 1⟩

/-- The canonical-form invariant of the spec: a vector whose nine non-count
exponents are all zero (so every non-count exponent is 0) has count exponent
1, and any other vector has count exponent 0. -/
def Canonical (d : Dimension) : Prop :=
  (firstNineZero d → d.count = 1) ∧ (¬ firstNineZero d → d.count = 0)

instance (d : Dimension) : Decidable (Canonical d) := by
  unfold Canonical; infer_instance

/-! Helper lemmas for the dimension algebra. -/

/-- `new` only ever rewrites the count component: the nine non-count
components of `Dimension.new p` are those of `p`. -/
theorem new_keeps_first_nine (p : Dimension) :
    (Dimension.new p).mass = p.mass ∧ (Dimension.new p).length = p.length ∧
    (Dimension.new p).time = p.time ∧ (Dimension.new p).current = p.current ∧
    (Dimension.new p).temperature = p.temperature ∧
    (Dimension.new p).amountOfSubstance = p.amountOfSubstance ∧
    (Dimension.new p).luminousIntensity = p.luminousIntensity ∧
    (Dimension.new p).angle = p.angle ∧ (Dimension.new p).bit = p.bit := by
  unfold Dimension.new
  split
  · rename_i h
    obtain ⟨h1, h2, h3, h4, h5, h6, h7, h8, h9⟩ := h
    exact ⟨h1.symm, h2.symm, h3.symm, h4.symm, h5.symm, h6.symm, h7.symm,
      h8.symm, h9.symm⟩
  · exact ⟨rfl, rfl, rfl, rfl, rfl, rfl, rfl, rfl, rfl⟩

/-- `new` depends only on the nine non-count components. -/
theorem new_congr (p q : Dimension)
    (h : p.mass = q.mass ∧ p.length = q.length ∧ p.time = q.time ∧
      p.current = q.current ∧ p.temperature = q.temperature ∧
      p.amountOfSubstance = q.amountOfSubstance ∧
      p.luminousIntensity = q.luminousIntensity ∧ p.angle = q.angle ∧
      p.bit = q.bit) :
    Dimension.new p = Dimension.new q := by
  obtain ⟨h1, h2, h3, h4, h5, h6, h7, h8, h9⟩ := h
  unfold Dimension.new firstNineZero
  cases p; cases q
  simp_all

/-- On canonical vectors, `new` is the identity. -/
theorem new_of_canonical (a : Dimension) (ha : Canonical a) :
    Dimension.new a = a := by
  obtain ⟨hz, hnz⟩ := ha
  unfold Dimension.new
  split
  · rename_i h
    have hc := hz h
    obtain ⟨h1, h2, h3, h4, h5, h6, h7, h8, h9⟩ := h
    cases a
    simp_all
  · rename_i h
    have hc := hnz h
    cases a
    simp_all

/-! ## Claims about the dimension algebra -/

/-- C4: every Dimension produced by `new`, `multiply`, `divide` or `power` is
canonical — if the nine non-count exponents are all zero, the count exponent
is 1 (the vector is the unique dimensionless one); otherwise the count
exponent is 0. -/
theorem dimension_ops_canonical :
    (∀ p : Dimension, Canonical (Dimension.new p)) ∧
    (∀ a b : Dimension, Canonical (Dimension.mul a b)) ∧
    (∀ a b : Dimension, Canonical (Dimension.div a b)) ∧
    (∀ (a : Dimension) (n : Int), Canonical (Dimension.pow a n)) := by
  have hnew : ∀ p : Dimension, Canonical (Dimension.new p) := by
    intro p
    obtain ⟨p1, p2, p3, p4, p5, p6, p7, p8, p9, p10⟩ := p
    unfold Dimension.new
    split
    · exact ⟨fun _ => rfl, fun h => absurd (by decide) h⟩
    · rename_i h
      exact ⟨fun h9 => absurd h9 h, fun _ => rfl⟩
  exact ⟨hnew, fun a b => hnew _, fun a b => hnew _, fun a n => hnew _⟩

/-- C5: for canonical dimensions, multiplication and division are mutually
inverse, `power 0` is the dimensionless identity, and `power 1` is the
identity operation. -/
theorem dimension_algebra_laws (a b : Dimension) (ha : Canonical a) :
    (a.mul b).div b = a ∧ a.pow 0 = COUNT ∧ a.pow 1 = a := by
  refine ⟨?_, ?_, ?_⟩
  · have hk := new_keeps_first_nine ⟨a.mass + b.mass, a.length + b.length,
      a.time + b.time, a.current + b.current, a.temperature + b.temperature,
      a.amountOfSubstance + b.amountOfSubstance,
      a.luminousIntensity + b.luminousIntensity, a.angle + b.angle,
      a.bit + b.bit, a.count + b.count⟩
    obtain ⟨k1, k2, k3, k4, k5, k6, k7, k8, k9⟩ := hk
    unfold Dimension.mul Dimension.div
    refine (new_congr _ a ⟨?_, ?_, ?_, ?_, ?_, ?_, ?_, ?_, ?_⟩).trans
      (new_of_canonical a ha) <;> dsimp only
    · rw [k1]; dsimp only; omega
    · rw [k2]; dsimp only; omega
    · rw [k3]; dsimp only; omega
    · rw [k4]; dsimp only; omega
    · rw [k5]; dsimp only; omega
    · rw [k6]; dsimp only; omega
    · rw [k7]; dsimp only; omega
    · rw [k8]; dsimp only; omega
    · rw [k9]; dsimp only; omega
  · unfold Dimension.pow
    have h0 : wrapToI32 0 = 0 := by unfold wrapToI32; decide
    rw [h0]
    simp only [mul_zero]
    unfold Dimension.new
    rw [if_pos (by unfold firstNineZero; exact ⟨rfl, rfl, rfl, rfl, rfl, rfl, rfl, rfl, rfl⟩)]
    rfl
  · unfold Dimension.pow
    have h1 : wrapToI32 1 = 1 := by unfold wrapToI32; decide
    rw [h1]
    simp only [mul_one]
    exact new_of_canonical a ha

/-- Witness for C5 at concrete inputs. -/
theorem dimension_algebra_laws_witness :
    Canonical LENGTH ∧
      ((LENGTH.mul TIME).div TIME = LENGTH ∧ LENGTH.pow 0 = COUNT ∧
        LENGTH.pow 1 = LENGTH) :=
  ⟨by decide, dimension_algebra_laws LENGTH TIME (by decide)⟩

/-- C10: `Dimension::pow` truncates its 64-bit exponent to 32 bits before
multiplying the exponent vector: `a.pow n` equals `a.pow` of `n` reduced
modulo `2^32` into i32 range, and in particular `a.pow (2^32)` is the
dimensionless identity — at `LENGTH` it is not the elementwise product by
`2^32`. -/
theorem dimension_pow_wraps_i32 :
    (∀ (a : Dimension) (n : Int), a.pow n = a.pow (wrapToI32 n)) ∧
    (∀ a : Dimension, a.pow (2 ^ 32) = COUNT) ∧
    LENGTH.pow (2 ^ 32) ≠ ⟨0, 2 ^ 32, 0, 0, 0, 0, 0, 0, 0, 0⟩ := by
  have hidem : ∀ n : Int, wrapToI32 (wrapToI32 n) = wrapToI32 n := by
    intro n; unfold wrapToI32; omega
  have hbig : wrapToI32 (2 ^ 32) = 0 := by unfold wrapToI32; decide
  have hpow : ∀ a : Dimension, a.pow (2 ^ 32) = COUNT := by
    intro a
    unfold Dimension.pow
    rw [hbig]
    simp only [mul_zero]
    unfold Dimension.new
    rw [if_pos (by unfold firstNineZero; exact ⟨rfl, rfl, rfl, rfl, rfl, rfl, rfl, rfl, rfl⟩)]
    rfl
  refine ⟨?_, hpow, ?_⟩
  · intro a n
    unfold Dimension.pow
    rw [hidem]
  · rw [hpow LENGTH]
    intro h
    have := congrArg Dimension.length h
    simp [COUNT] at this

/-! ## transformations.rs: the transformation model

`f64` is modelled as `ℚ`.  The `MathOpsF64` trait (scalar arithmetic with an
`f64`, logarithm/exponential/power with an `f64` base, conversion to `f64`)
becomes an explicit operations record over the generic carrier `T`. -/

/-- The `MathOpsF64` capability set of `transformations.rs`. -/
structure MathOps (T : Type) where
  addF : T → ℚ → T
  subF : T → ℚ → T
  mulF : T → ℚ → T
  divF : T → ℚ → T
  log : T → ℚ → T
  exp : T → ℚ → T
  pow : T → ℚ → T
  as_f64 : T → ℚ

/-- `LinearTransformation { scale, offset }`. -/
structure LinearTransformation where
  scale : ℚ
  offset : ℚ
deriving DecidableEq, Repr

/-- `DecibelTransformation { p0 }`. -/
structure DecibelTransformation where
  p0 : ℚ
deriving DecidableEq, Repr

/-- The closed tagged union of transformations, as consumed exhaustively by
`units.rs`, `quantities.rs` and `parser.rs` (`Identity`, `Linear(..)`,
`Decibel(..)`). -/
inductive UnitTransformation where
  | Identity
  | Linear (t : LinearTransformation)
  | Decibel (t : DecibelTransformation)
deriving DecidableEq, Repr

/-- `to_base`: Identity is the identity; Linear is `value * scale + offset`;
Decibel is `10^(value/10) * p0`. -/
def UnitTransformation.to_base {T : Type} (ops : MathOps T) :
    UnitTransformation → T → T
  | .Identity, v => v
  | .Linear t, v => ops.addF (ops.mulF v t.scale) t.offset
  | .Decibel t, v => ops.mulF (ops.exp (ops.divF v 10) 10) t.p0

/-- `from_base`: Identity is the identity; Linear is
`(value - offset) / scale`; Decibel is `10 * log10 (value / p0)`. -/
def UnitTransformation.from_base {T : Type} (ops : MathOps T) :
    UnitTransformation → T → T
  | .Identity, v => v
  | .Linear t, v => ops.divF (ops.subF v t.offset) t.scale
  | .Decibel t, v => ops.mulF (ops.log (ops.divF v t.p0) 10) 10

/-! ## units.rs: units and their composition -/

/-- `Unit { name, dimensionality, transformation }`. -/
structure Unit where
  name : String
  dimensionality : Dimension
  transformation : UnitTransformation
deriving DecidableEq, Repr

/-- `Unit::new_base`: an Identity unit. -/
def Unit.new_base (name : String) (dimension : Dimension) : Unit :=
  ⟨name, dimension, .Identity⟩

/-- `Unit::new_linear`. -/
def Unit.new_linear (name : String) (dimension : Dimension) (scale offset : ℚ) :
    Unit :=
  ⟨name, dimension, .Linear ⟨scale, offset⟩⟩

/-- Outcome of an operation that can only succeed or abort the process
(a Rust value-or-panic); there is no error constructor because these
operations return no `Result`. -/
inductive POut (α : Type) where
  | panicked (msg : String)
  | ok (v : α)
deriving DecidableEq, Repr

/-- True exactly on the aborted outcome. -/
def POut.isPanicked {α : Type} : POut α → Bool
  | .panicked _ => true
  | .ok _ => false

/-- The guard of the first two arms of the `match` in `Mul`/`Div` for `Unit`:
the operand is Linear with a non-zero offset. -/
def trOffsetNonzero : UnitTransformation → Bool
  | .Linear t => t.offset != 0
  | _ => false

/-- The third arm of that `match`: the operand is a Decibel transformation. -/
def isDecibel : UnitTransformation → Bool
  | .Decibel _ => true
  | _ => false

/-- The scale extraction after the guard (`Identity => 1.0`,
`Linear { scale, .. } => scale`); the remaining arm is `unreachable!()`,
which aborts. -/
def scaleOf : UnitTransformation → POut ℚ
  | .Identity => .ok 1
  | .Linear t => .ok t.scale
  | .Decibel _ => .panicked "internal error: entered unreachable code"

/-- `impl Mul<Unit> for Unit`: abort on a biased-Linear or Decibel operand;
otherwise combine the names, multiply the dimensionalities and the scales,
and return a zero-offset Linear unit. -/
def Unit.mul (a rhs : Unit) : POut Unit :=
  if trOffsetNonzero a.transformation then
    .panicked "Multiplication not permitted for unit with biased transformation"
  else if trOffsetNonzero rhs.transformation then
    .panicked "Multiplication not permitted for unit with biased transformation"
  else if isDecibel a.transformation || isDecibel rhs.transformation then
    .panicked "Multiplication not supported for decibel transformations"
  else
    match scaleOf a.transformation, scaleOf rhs.transformation with
    | .ok scale, .ok rhs_scale =>
        .ok ⟨"(" ++ a.name ++ " * " ++ rhs.name ++ ")",
          a.dimensionality.mul rhs.dimensionality,
          .Linear ⟨scale * rhs_scale, 0⟩⟩
    | .panicked m, _ => .panicked m
    | _, .panicked m => .panicked m

/-- `impl Div<Unit> for Unit`, exactly as written in the source: the guards
and the synthesized name are those of `Mul`, the scales are divided, and the
new dimensionality is computed with
`self.dimensionality * rhs.dimensionality` — a multiplication. -/
def Unit.div (a rhs : Unit) : POut Unit :=
  if trOffsetNonzero a.transformation then
    .panicked "Multiplication not permitted for unit with biased transformation"
  else if trOffsetNonzero rhs.transformation then
    .panicked "Multiplication not permitted for unit with biased transformation"
  else if isDecibel a.transformation || isDecibel rhs.transformation then
    .panicked "Multiplication not supported for decibel transformations"
  else
    match scaleOf a.transformation, scaleOf rhs.transformation with
    | .ok scale, .ok rhs_scale =>
        .ok ⟨"(" ++ a.name ++ " * " ++ rhs.name ++ ")",
          a.dimensionality.mul rhs.dimensionality,
          .Linear ⟨scale / rhs_scale, 0⟩⟩
    | .panicked m, _ => .panicked m
    | _, .panicked m => .panicked m

/-- Modelled from the spec: `Unit::power` is called by `Quantity::pow` and by
the repository's tests and is described in spec §4.3, but its implementation
is not among the given source files.  Per the spec: the dimension becomes
`dimension.power(n)`; the transformation must be Identity or Linear with zero
offset — Decibel or biased Linear is a fatal usage error; the resulting scale
(if Linear) is `scale^n`. -/
def Unit.power (u : Unit) (n : Int) : POut Unit :=
  match u.transformation with
  | .Identity => .ok ⟨u.name, u.dimensionality.pow n, .Identity⟩
  | .Linear t =>
      if t.offset ≠ 0 then
        .panicked "Cannot raise a biased unit to a power"
      else .ok ⟨u.name, u.dimensionality.pow n, .Linear ⟨t.scale ^ n, 0⟩⟩
  | .Decibel _ => .panicked "Cannot raise a decibel unit to a power"

/-! ## errors.rs: the error taxonomy -/

/-- `ArshinError`, with the fields of each variant. -/
inductive ArshinError where
  | NotCompatibleDimensionalities (a b : Dimension)
  | PestParseError (message : String)
  | OSError (message : String)
  | UnitsConversionError (expected got : Dimension)
  | RegistryAlreadyContainsUnit (name : String)
  | RegistryDoesNotContainUnit (name : String)
deriving DecidableEq, Repr

/-! ## quantities.rs: quantities

A `Quantity<T>` stores its magnitude already converted to the canonical base
representation. -/

/-- `Quantity { magnitude, unit }`. -/
structure Quantity (T : Type) where
  magnitude : T
  unit : Unit

/-- `Quantity::new`: stores `unit.to_base(magnitude)`. -/
def Quantity.new {T : Type} (ops : MathOps T) (magnitude : T) (unit : Unit) :
    Quantity T :=
  ⟨UnitTransformation.to_base ops unit.transformation magnitude, unit⟩

/-- `Quantity::dimensionality`: the dimension of the attached unit. -/
def Quantity.dimensionality {T : Type} (q : Quantity T) : Dimension :=
  q.unit.dimensionality

/-- `Quantity::magnitude_as`: a `UnitsConversionError` carrying the expected
(own) and got (target) dimensions when they differ, otherwise
`target.from_base(self.magnitude)`. -/
def Quantity.magnitude_as {T : Type} (ops : MathOps T) (q : Quantity T)
    (unit : Unit) : Except ArshinError T :=
  if q.dimensionality ≠ unit.dimensionality then
    .error (.UnitsConversionError q.dimensionality unit.dimensionality)
  else
    .ok (UnitTransformation.from_base ops unit.transformation q.magnitude)

/-- `impl Add for Quantity`: abort (with the formatted conversion error as
the message) when the dimensions differ; otherwise add the base magnitudes
directly and keep the left operand unit. -/
def Quantity.add {T : Type} (addT : T → T → T) (q other : Quantity T) :
    POut (Quantity T) :=
  if q.dimensionality ≠ other.dimensionality then
    .panicked "Incompatible units"
  else
    .ok ⟨addT q.magnitude other.magnitude, q.unit⟩

/-- `impl Sub for Quantity`: abort when the dimensions differ; otherwise
subtract the base magnitudes directly and keep the left operand unit. -/
def Quantity.sub {T : Type} (subT : T → T → T) (q other : Quantity T) :
    POut (Quantity T) :=
  if q.dimensionality ≠ other.dimensionality then
    .panicked "Incompatible units"
  else
    .ok ⟨subT q.magnitude other.magnitude, q.unit⟩

/-- `Quantity::pow`: abort for a Decibel or biased-Linear unit; otherwise a
new quantity built from `magnitude.pow(power as f64)` and `unit.pow(power)`
(through `Quantity::new`, so the result is re-normalized with the new
unit). -/
def Quantity.pow {T : Type} (ops : MathOps T) (q : Quantity T) (power : Int) :
    POut (Quantity T) :=
  if isDecibel q.unit.transformation then
    .panicked "Cannot raise a decibel quantity to a power"
  else if trOffsetNonzero q.unit.transformation then
    .panicked "Cannot raise a biased quantity to a power"
  else
    match Unit.power q.unit power with
    | .panicked m => .panicked m
    | .ok u => .ok (Quantity.new ops (ops.pow q.magnitude (power : ℚ)) u)

/-! Concrete values shared by the witnesses below. -/

/-- A concrete carrier for evaluating the generic quantity layer, playing the
role of a `MathOpsF64` implementor with `T = f64` (both modelled as `ℚ`).
Its power operation interprets integral exponents exactly; the transcendental
operations of the double-precision implementor have no exact rational
counterpart and are never evaluated by the claims below. -/
def sampleOps : MathOps ℚ :=
  ⟨(· + ·), (· - ·), (· * ·), (· / ·), fun _ _ => 0, fun _ _ => 0,
    fun v e => v ^ e.num, id⟩

def meterU : Unit := Unit.new_base "meter" LENGTH

def secondU : Unit := Unit.new_base "second" TIME

def kilometerU : Unit := Unit.new_linear "kilometer" LENGTH 1000 0

/-! ## Claims about unit composition and quantities -/

/-- C1 (refuted — code bug): dividing two zero-offset units does produce a
Linear transformation with `scale_a / scale_b` and offset 0, but the result
dimension is `self.dimensionality * rhs.dimensionality`: the `Div` impl
multiplies the dimensions (a copy of the `Mul` impl, as its synthesized name
`"(a * b)"` also shows), so `meter / second` has dimension length·time,
which differs from `LENGTH.div TIME`. -/
theorem unit_div_dimension_uses_multiply :
    Unit.div meterU secondU =
      .ok ⟨"(meter * second)", Dimension.mul LENGTH TIME, .Linear ⟨1, 0⟩⟩ ∧
    Dimension.mul LENGTH TIME ≠ Dimension.div LENGTH TIME := by
  constructor
  · norm_num [Unit.div, meterU, secondU, Unit.new_base, trOffsetNonzero,
      isDecibel, scaleOf]
    rfl
  · decide

/-- The condition the spec calls out as illegal for composition: a Decibel
transformation, or a Linear transformation with non-zero offset. -/
def badTr (t : UnitTransformation) : Bool :=
  isDecibel t || trOffsetNonzero t

/-- C3: unit multiplication and division abort exactly when an operand has a
Decibel or biased-Linear transformation; raising a unit, or a quantity, to a
power aborts exactly when its transformation is Decibel or biased Linear.
These are aborts (`POut.panicked`), not returned error values — `POut` has no
error constructor — and outside these cases no abort is reachable. -/
theorem composition_fatal_iff :
    (∀ a b : Unit, (Unit.mul a b).isPanicked = true ↔
        (badTr a.transformation = true ∨ badTr b.transformation = true)) ∧
    (∀ a b : Unit, (Unit.div a b).isPanicked = true ↔
        (badTr a.transformation = true ∨ badTr b.transformation = true)) ∧
    (∀ (u : Unit) (n : Int),
        (Unit.power u n).isPanicked = true ↔ badTr u.transformation = true) ∧
    (∀ (T : Type) (ops : MathOps T) (q : Quantity T) (n : Int),
        (Quantity.pow ops q n).isPanicked = true ↔
          badTr q.unit.transformation = true) := by
  have hscale : ∀ t : UnitTransformation, isDecibel t = false →
      ∃ s : ℚ, scaleOf t = POut.ok s := by
    intro t h
    cases t with
    | Identity => exact ⟨1, rfl⟩
    | Linear lt => exact ⟨lt.scale, rfl⟩
    | Decibel dt => simp [isDecibel] at h
  have hmul : ∀ a b : Unit, (Unit.mul a b).isPanicked = true ↔
      (badTr a.transformation = true ∨ badTr b.transformation = true) := by
    intro a b
    cases ha : trOffsetNonzero a.transformation with
    | true => simp [Unit.mul, ha, POut.isPanicked, badTr]
    | false =>
      cases hb : trOffsetNonzero b.transformation with
      | true => simp [Unit.mul, ha, hb, POut.isPanicked, badTr]
      | false =>
        cases hda : isDecibel a.transformation with
        | true => simp [Unit.mul, ha, hb, hda, POut.isPanicked, badTr]
        | false =>
          cases hdb : isDecibel b.transformation with
          | true => simp [Unit.mul, ha, hb, hda, hdb, POut.isPanicked, badTr]
          | false =>
            obtain ⟨s1, hs1⟩ := hscale a.transformation hda
            obtain ⟨s2, hs2⟩ := hscale b.transformation hdb
            simp [Unit.mul, ha, hb, hda, hdb, hs1, hs2, POut.isPanicked, badTr]
  have hdiv : ∀ a b : Unit, (Unit.div a b).isPanicked = true ↔
      (badTr a.transformation = true ∨ badTr b.transformation = true) := by
    intro a b
    cases ha : trOffsetNonzero a.transformation with
    | true => simp [Unit.div, ha, POut.isPanicked, badTr]
    | false =>
      cases hb : trOffsetNonzero b.transformation with
      | true => simp [Unit.div, ha, hb, POut.isPanicked, badTr]
      | false =>
        cases hda : isDecibel a.transformation with
        | true => simp [Unit.div, ha, hb, hda, POut.isPanicked, badTr]
        | false =>
          cases hdb : isDecibel b.transformation with
          | true => simp [Unit.div, ha, hb, hda, hdb, POut.isPanicked, badTr]
          | false =>
            obtain ⟨s1, hs1⟩ := hscale a.transformation hda
            obtain ⟨s2, hs2⟩ := hscale b.transformation hdb
            simp [Unit.div, ha, hb, hda, hdb, hs1, hs2, POut.isPanicked, badTr]
  have hpowU : ∀ (u : Unit) (n : Int),
      (Unit.power u n).isPanicked = true ↔ badTr u.transformation = true := by
    intro u n
    cases hu : u.transformation with
    | Identity =>
        simp [Unit.power, hu, POut.isPanicked, badTr, isDecibel, trOffsetNonzero]
    | Linear lt =>
        by_cases ho : lt.offset = 0 <;>
          simp [Unit.power, hu, ho, POut.isPanicked, badTr, isDecibel,
            trOffsetNonzero]
    | Decibel dt =>
        simp [Unit.power, hu, POut.isPanicked, badTr, isDecibel]
  refine ⟨hmul, hdiv, hpowU, ?_⟩
  intro T ops q n
  cases hu : q.unit.transformation with
  | Identity =>
      simp [Quantity.pow, hu, isDecibel, trOffsetNonzero, Unit.power,
        POut.isPanicked, badTr]
  | Linear lt =>
      by_cases ho : lt.offset = 0 <;>
        simp [Quantity.pow, hu, ho, isDecibel, trOffsetNonzero, Unit.power,
          POut.isPanicked, badTr]
  | Decibel dt =>
      simp [Quantity.pow, hu, isDecibel, POut.isPanicked, badTr]

/-- C6: `magnitude_as` fails exactly when the dimensions differ, the error
carries the expected (own) and got (target) dimensions, and on matching
dimensions it returns the target unit's `from_base` of the stored base
magnitude. -/
theorem magnitude_as_spec (T : Type) (ops : MathOps T) (q : Quantity T)
    (u : Unit) :
    ((∃ e, Quantity.magnitude_as ops q u = .error e) ↔
      q.dimensionality ≠ u.dimensionality) ∧
    (q.dimensionality ≠ u.dimensionality →
      Quantity.magnitude_as ops q u =
        .error (.UnitsConversionError q.dimensionality u.dimensionality)) ∧
    (q.dimensionality = u.dimensionality →
      Quantity.magnitude_as ops q u =
        .ok (UnitTransformation.from_base ops u.transformation q.magnitude)) := by
  unfold Quantity.magnitude_as
  by_cases h : q.dimensionality = u.dimensionality <;> simp [h]

/-- Witness for C6: converting 5000 meter to kilometer yields 5; converting a
meter quantity to seconds is the conversion error with expected LENGTH and
got TIME. -/
theorem magnitude_as_spec_witness :
    Quantity.magnitude_as sampleOps (Quantity.new sampleOps 5000 meterU)
        kilometerU = .ok 5 ∧
    Quantity.magnitude_as sampleOps (Quantity.new sampleOps 1 meterU) secondU =
      .error (.UnitsConversionError LENGTH TIME) := by
  constructor
  · refine ((magnitude_as_spec ℚ sampleOps (Quantity.new sampleOps 5000 meterU)
      kilometerU).2.2 rfl).trans ?_
    norm_num [UnitTransformation.from_base, UnitTransformation.to_base,
      sampleOps, kilometerU, meterU, Unit.new_linear, Unit.new_base,
      Quantity.new]
  · exact ((magnitude_as_spec ℚ sampleOps (Quantity.new sampleOps 1 meterU)
      secondU).2.1 (by decide)).trans rfl

/-- C9: quantity addition and subtraction abort exactly when the dimensions
differ (no numeric result is produced), and on equal dimensions the result is
the direct sum/difference of the stored base magnitudes under the left
operand's unit. -/
theorem quantity_add_sub_spec (T : Type) (addT subT : T → T → T)
    (q other : Quantity T) :
    ((Quantity.add addT q other).isPanicked = true ↔
      q.dimensionality ≠ other.dimensionality) ∧
    (q.dimensionality = other.dimensionality →
      Quantity.add addT q other =
        .ok ⟨addT q.magnitude other.magnitude, q.unit⟩) ∧
    ((Quantity.sub subT q other).isPanicked = true ↔
      q.dimensionality ≠ other.dimensionality) ∧
    (q.dimensionality = other.dimensionality →
      Quantity.sub subT q other =
        .ok ⟨subT q.magnitude other.magnitude, q.unit⟩) := by
  unfold Quantity.add Quantity.sub
  by_cases h : q.dimensionality = other.dimensionality <;>
    simp [h, POut.isPanicked]

/-- Witness for C9: 1000 meter plus 2 kilometer is the quantity with base
magnitude 3000 under the meter unit; adding a meter quantity and a second
quantity aborts. -/
theorem quantity_add_sub_spec_witness :
    Quantity.add (· + ·) (Quantity.new sampleOps 1000 meterU)
        (Quantity.new sampleOps 2 kilometerU) = .ok ⟨3000, meterU⟩ ∧
    (Quantity.add (· + ·) (Quantity.new sampleOps 1 meterU)
        (Quantity.new sampleOps 1 secondU)).isPanicked = true := by
  constructor
  · refine ((quantity_add_sub_spec ℚ (· + ·) (· - ·)
      (Quantity.new sampleOps 1000 meterU)
      (Quantity.new sampleOps 2 kilometerU)).2.1 rfl).trans ?_
    norm_num [Quantity.new, UnitTransformation.to_base, sampleOps, meterU,
      kilometerU, Unit.new_base, Unit.new_linear]
  · exact (quantity_add_sub_spec ℚ (· + ·) (· - ·)
      (Quantity.new sampleOps 1 meterU)
      (Quantity.new sampleOps 1 secondU)).1.mpr (by decide)

/-! ## registry.rs: the unit registry -/

/-- The name-keyed unit store (`HashMap<String, Unit>`), modelled as an
association list; `register` refuses duplicate keys, so at most one entry per
key ever exists and the list differs from a finite map only by its
insertion order. -/
abbrev UnitRegistry := List (String × Unit)

/-- `UnitRegistry::contains`. -/
def UnitRegistry.contains (r : UnitRegistry) (name : String) : Bool :=
  r.any (fun e => e.1 == name)

/-- `UnitRegistry::get`. -/
def UnitRegistry.get (r : UnitRegistry) (name : String) : Option Unit :=
  (r.find? (fun e => e.1 == name)).map (fun e => e.2)

/-- `UnitRegistry::register`: refuse an already-present name with
`RegistryAlreadyContainsUnit`, leaving the store untouched; otherwise insert.
The returned pair models (the `Result` value, the registry after the
`&mut self` call). -/
def UnitRegistry.register (r : UnitRegistry) (unit : Unit) :
    Except ArshinError PUnit.{1} × UnitRegistry :=
  if UnitRegistry.contains r unit.name then
    (.error (.RegistryAlreadyContainsUnit unit.name), r)
  else
    (.ok PUnit.unit, r ++ [(unit.name, unit)])

/-- A found entry is still found after appending entries on the right. -/
theorem find?_append_of_some {α : Type} (p : α → Bool) (l1 l2 : List α)
    (a : α) (h : l1.find? p = some a) : (l1 ++ l2).find? p = some a := by
  induction l1 with
  | nil => simp at h
  | cons x xs ih =>
    rw [List.cons_append]
    cases hx : p x with
    | true =>
        rw [List.find?_cons_of_pos _ hx] at h ⊢
        exact h
    | false =>
        rw [List.find?_cons_of_neg _ (by simp [hx])] at h ⊢
        exact ih h

/-! ## Claim about registration -/

/-- C7: registering a name already present returns the duplicate-name error
and leaves the registry exactly as it was; registration never replaces or
removes an existing entry (every previous lookup still succeeds with the
same unit). -/
theorem register_duplicate_unchanged (r : UnitRegistry) (u : Unit) :
    (UnitRegistry.contains r u.name = true →
      UnitRegistry.register r u =
        (.error (.RegistryAlreadyContainsUnit u.name), r)) ∧
    (∀ (n : String) (u0 : Unit), UnitRegistry.get r n = some u0 →
      UnitRegistry.get (UnitRegistry.register r u).2 n = some u0) := by
  constructor
  · intro h
    simp [UnitRegistry.register, h]
  · intro n u0 h
    unfold UnitRegistry.register
    by_cases hc : UnitRegistry.contains r u.name = true
    · simp [hc]
      exact h
    · simp [hc]
      unfold UnitRegistry.get at h ⊢
      rcases Option.map_eq_some'.mp h with ⟨e, he, he2⟩
      rw [find?_append_of_some _ _ _ _ he]
      simp [he2]

/-- Witness for C7: registering `meter` over an existing `meter` entry fails
and keeps the one-entry registry; registering `kilometer` keeps the `meter`
entry reachable. -/
theorem register_duplicate_unchanged_witness :
    UnitRegistry.register [("meter", meterU)] meterU =
      (.error (.RegistryAlreadyContainsUnit "meter"), [("meter", meterU)]) ∧
    UnitRegistry.get (UnitRegistry.register [("meter", meterU)] kilometerU).2
      "meter" = some meterU := by
  constructor
  · exact (register_duplicate_unchanged [("meter", meterU)] meterU).1
      (by decide)
  · exact (register_duplicate_unchanged [("meter", meterU)] kilometerU).2
      "meter" meterU (by decide)

/-! ## parser.rs: the definition-language parser

The pest grammar stage (`units.pest`, turning document text into
`UnitDefinition` values) is not among the given source files; everything
below the grammar — dimension-expression reduction, unit construction,
registration and SI-prefix expansion — is embedded from `parse_units_file`.
Concrete documents used by the claims are therefore given directly as
`UnitDefinition` lists, modelled from the spec grammar. -/

/-- A `DimensionTerm` as produced by the grammar: the term's exponent already
carries the negation applied to terms that follow a `/` operator. -/
structure DimensionTerm where
  fundamental : String
  exponent : Int
deriving DecidableEq, Repr

/-- The parser-level `Transformation`. -/
inductive Transformation where
  | identity
  | linear (scale : ℚ) (offset : Option ℚ)
  | decibel (p0 : ℚ)
deriving DecidableEq, Repr

/-- The parser-level `Prefixes` flag. -/
inductive Prefixes where
  | standard
  | no
deriving DecidableEq, Repr

/-- A parsed `UnitDefinition` block. -/
structure UnitDefinition where
  name : String
  dimension : List DimensionTerm
  transformation : Transformation
  prefixes : Prefixes
deriving DecidableEq, Repr

/-- `SI_PREFIXES`: the fixed 24-entry table (long name, symbol, factor), from
`Quetta` = 10^30 down to `quecto` = 10^-30.  The `f64` factors are modelled
as exact rationals. -/
def SI_PREFIXES : List (String × String × ℚ) :=
  [("Quetta", "Q", 10 ^ 30),
   ("Ronna", "R", 10 ^ 27),
   ("Yotta", "Y", 10 ^ 24),
   ("Zetta", "Z", 10 ^ 21),
   ("Exa", "E", 10 ^ 18),
   ("Peta", "P", 10 ^ 15),
   ("Tera", "T", 10 ^ 12),
   ("Giga", "G", 10 ^ 9),
   ("Mega", "M", 10 ^ 6),
   ("kilo", "k", 10 ^ 3),
   ("hecto", "h", 10 ^ 2),
   ("deca", "da", 10 ^ 1),
   ("deci", "d", 1 / 10 ^ 1),
   ("centi", "c", 1 / 10 ^ 2),
   ("milli", "m", 1 / 10 ^ 3),
   ("micro", "µ", 1 / 10 ^ 6),
   ("nano", "n", 1 / 10 ^ 9),
   ("pico", "p", 1 / 10 ^ 12),
   ("femto", "f", 1 / 10 ^ 15),
   ("atto", "a", 1 / 10 ^ 18),
   ("zepto", "z", 1 / 10 ^ 21),
   ("yocto", "y", 1 / 10 ^ 24),
   ("ronto", "r", 1 / 10 ^ 27),
   ("quecto", "q", 1 / 10 ^ 30)]

/-- Outcome of a fallible parse step: an abort (panic), a returned `Err`
value, or success. -/
inductive PRes (α : Type) where
  | panicked (msg : String)
  | fails (e : ArshinError)
  | ok (v : α)
deriving DecidableEq, Repr

/-- True exactly on the aborted outcome. -/
def PRes.isPanicked {α : Type} : PRes α → Bool
  | .panicked _ => true
  | _ => false

/-- The fundamental-axis lookup in the reduction loop of `parse_units_file`;
the fall-through arm is `unreachable!()`, an abort. -/
def fundamentalDim (s : String) : PRes Dimension :=
  if s == "length" then .ok LENGTH
  else if s == "mass" then .ok MASS
  else if s == "time" then .ok TIME
  else if s == "current" then .ok CURRENT
  else if s == "temperature" then .ok TEMPERATURE
  else if s == "amount of substance" then .ok AMOUNT_OF_SUBSTANCE
  else if s == "luminous intensity" then .ok LUMINOUS_INTENSITY
  else if s == "angle" then .ok ANGLE
  else if s == "bit" then .ok BIT
  else if s == "count" then .ok COUNT
  else .panicked "internal error: entered unreachable code"

/-- The dimension-expression reduction: starting from `COUNT`, multiply in
each term's axis dimension raised to the term's exponent, left to right. -/
def reduceDimension (acc : Dimension) : List DimensionTerm → PRes Dimension
  | [] => .ok acc
  | t :: ts =>
      match fundamentalDim t.fundamental with
      | .ok d => reduceDimension (acc.mul (d.pow t.exponent)) ts
      | .panicked m => .panicked m
      | .fails e => .fails e

/-- `registry.register(..).unwrap()`: an `Err` from `register` aborts. -/
def registerUnwrap (r : UnitRegistry) (u : Unit) : PRes UnitRegistry :=
  match UnitRegistry.register r u with
  | (.error _, _) => .panicked "called Result unwrap on an Err value"
  | (.ok _, r2) => .ok r2

/-- The prefix-expansion loop: one `new_linear` registration (unwrapped) per
table entry, named `prefix ++ baseName`, with scale `baseScale * factor` and
offset 0.  The Identity branch of the source registers `factor` itself,
which is the same value as `1 * factor`. -/
def expandStd (nm : String) (dim : Dimension) (baseScale : ℚ) :
    UnitRegistry → List (String × String × ℚ) → PRes UnitRegistry
  | r, [] => .ok r
  | r, e :: rest =>
      match registerUnwrap r
          (Unit.new_linear (e.1 ++ nm) dim (baseScale * e.2.2) 0) with
      | .ok r2 => expandStd nm dim baseScale r2 rest
      | .panicked m => .panicked m
      | .fails er => .fails er

/-- Processing of one `UnitDefinition` by `parse_units_file`: reduce the
dimension expression, register the base unit (unwrapping the result), then,
for `prefixes: standard`, reject Decibel and biased-Linear transformations
with a returned parse error and otherwise register the 24 prefixed
derivatives. -/
def processDef (r : UnitRegistry) (d : UnitDefinition) : PRes UnitRegistry :=
  match reduceDimension COUNT d.dimension with
  | .panicked m => .panicked m
  | .fails e => .fails e
  | .ok dim =>
      match
        match d.transformation with
        | .identity => registerUnwrap r (Unit.new_base d.name dim)
        | .linear scale off =>
            registerUnwrap r (Unit.new_linear d.name dim scale (off.getD 0))
        | .decibel p0 => registerUnwrap r ⟨d.name, dim, .Decibel ⟨p0⟩⟩
      with
      | .panicked m => .panicked m
      | .fails e => .fails e
      | .ok r1 =>
          match d.prefixes with
          | .no => .ok r1
          | .standard =>
              match d.transformation with
              | .decibel _ => .fails (.PestParseError
                  "Decibel transformation is not compatible with standard prefixes")
              | .linear scale off =>
                  if off.getD 0 ≠ 0 then
                    .fails (.PestParseError
                      "Linear transformation with offset is not compatible with standard prefixes")
                  else expandStd d.name dim scale r1 SI_PREFIXES
              | .identity => expandStd d.name dim 1 r1 SI_PREFIXES

/-- The definition loop of `parse_units_file`: an abort or a returned error
stops the remaining document. -/
def runDefs (acc : PRes UnitRegistry) : List UnitDefinition → PRes UnitRegistry
  | [] => acc
  | d :: ds =>
      match acc with
      | .ok r => runDefs (processDef r d) ds
      | other => other

/-- `parse_units_file` below the pest grammar stage: fold the parsed
definitions over an empty registry. -/
def parse_units_defs (ds : List UnitDefinition) : PRes UnitRegistry :=
  runDefs (.ok []) ds

/-- Appending the same suffix to two strings is injective on the left part. -/
theorem string_append_right_cancel (p q n : String) (h : p ++ n = q ++ n) :
    p = q := by
  cases p with
  | mk pd =>
    cases q with
    | mk qd =>
      cases n with
      | mk nd =>
        have hd : pd ++ nd = qd ++ nd := congrArg String.data h
        exact congrArg String.mk (List.append_cancel_right hd)

/-- A non-empty string prepended to a name changes the name. -/
theorem string_append_ne (p n : String) (hp : p ≠ "") : p ++ n ≠ n := by
  intro h
  apply hp
  have h2 : p ++ n = "" ++ n := by
    rw [h]
    cases n with
    | mk nd => rfl
  exact string_append_right_cancel p "" n h2

/-- The prefix-expansion loop succeeds on a table of distinct prefix names
that are all fresh in the registry, appending exactly one entry per table
row, in order. -/
theorem expandStd_ok (nm : String) (dim : Dimension) (b : ℚ) :
    ∀ (table : List (String × String × ℚ)) (r : UnitRegistry),
      (∀ e ∈ table, UnitRegistry.contains r (e.1 ++ nm) = false) →
      (table.map (fun e => e.1)).Nodup →
      expandStd nm dim b r table =
        .ok (r ++ table.map (fun e =>
          (e.1 ++ nm, Unit.new_linear (e.1 ++ nm) dim (b * e.2.2) 0))) := by
  intro table
  induction table with
  | nil =>
    intro r _ _
    simp [expandStd]
  | cons e rest ih =>
    intro r hfresh hnodup
    have he : UnitRegistry.contains r (e.1 ++ nm) = false :=
      hfresh e (by simp)
    rw [expandStd, registerUnwrap, UnitRegistry.register]
    rw [if_neg (by simp [Unit.new_linear, he])]
    have hfresh2 : ∀ e2 ∈ rest,
        UnitRegistry.contains
          (r ++ [(e.1 ++ nm, Unit.new_linear (e.1 ++ nm) dim (b * e.2.2) 0)])
          (e2.1 ++ nm) = false := by
      intro e2 he2
      have h1 : UnitRegistry.contains r (e2.1 ++ nm) = false :=
        hfresh e2 (by simp [he2])
      have hne : (e.1 ++ nm == e2.1 ++ nm) = false := by
        rw [beq_eq_false_iff_ne]
        intro hh
        have heq : e.1 = e2.1 := string_append_right_cancel _ _ _ hh
        have hmem : e2.1 ∈ rest.map (fun e => e.1) :=
          List.mem_map_of_mem _ he2
        rw [List.map_cons, List.nodup_cons] at hnodup
        exact hnodup.1 (heq ▸ hmem)
      unfold UnitRegistry.contains at h1 ⊢
      rw [List.any_append]
      simp [h1, hne]
    have hrest := ih
      (r ++ [(e.1 ++ nm, Unit.new_linear (e.1 ++ nm) dim (b * e.2.2) 0)])
      hfresh2 (by rw [List.map_cons, List.nodup_cons] at hnodup; exact hnodup.2)
    simp only [Unit.new_linear] at hrest ⊢
    rw [hrest]
    simp

/-- C8: for a definition with `prefixes: standard` whose transformation is
Identity or zero-offset Linear, parsing registers the base unit and then
exactly one derived unit per entry of the 24-entry SI prefix table, named
`prefix ++ baseName`, Linear with scale `baseScale * factor` (baseScale 1
for Identity) and offset 0 — and nothing else. -/
theorem parse_standard_prefix_expansion (nm : String)
    (terms : List DimensionTerm) (dim : Dimension) (scale : ℚ)
    (off : Option ℚ)
    (hdim : reduceDimension COUNT terms = .ok dim)
    (hoff : off.getD 0 = 0) :
    parse_units_defs [⟨nm, terms, .identity, .standard⟩] =
      .ok ((nm, Unit.new_base nm dim) ::
        SI_PREFIXES.map (fun e =>
          (e.1 ++ nm, Unit.new_linear (e.1 ++ nm) dim (1 * e.2.2) 0))) ∧
    parse_units_defs [⟨nm, terms, .linear scale off, .standard⟩] =
      .ok ((nm, Unit.new_linear nm dim scale 0) ::
        SI_PREFIXES.map (fun e =>
          (e.1 ++ nm, Unit.new_linear (e.1 ++ nm) dim (scale * e.2.2) 0))) := by
  have hp_ne : ∀ e ∈ SI_PREFIXES, e.1 ≠ "" := by decide
  have hnodup : (SI_PREFIXES.map (fun e => e.1)).Nodup := by decide
  have hfresh : ∀ u0 : Unit, ∀ e ∈ SI_PREFIXES,
      UnitRegistry.contains [(nm, u0)] (e.1 ++ nm) = false := by
    intro u0 e he
    unfold UnitRegistry.contains
    simp only [List.any_cons, List.any_nil, Bool.or_false]
    rw [beq_eq_false_iff_ne]
    exact fun hh => (string_append_ne e.1 nm (hp_ne e he)) hh.symm
  constructor
  · simp only [parse_units_defs, runDefs, processDef, hdim]
    simp only [registerUnwrap, UnitRegistry.register, UnitRegistry.contains,
      List.any_nil, Bool.false_eq_true, if_false, Unit.new_base,
      List.nil_append]
    rw [expandStd_ok nm dim 1 SI_PREFIXES _ (hfresh _) hnodup]
    simp [Unit.new_base]
  · simp only [parse_units_defs, runDefs, processDef, hdim]
    simp only [registerUnwrap, UnitRegistry.register, UnitRegistry.contains,
      List.any_nil, Bool.false_eq_true, if_false, Unit.new_linear,
      List.nil_append, hoff]
    rw [if_neg (by simp [hoff])]
    rw [expandStd_ok nm dim scale SI_PREFIXES _ (hfresh _) hnodup]
    simp [Unit.new_linear]

/-- Modelled from the spec: the pest grammar stage (`units.pest`) is not in
the given sources; per the spec grammar, the document
`unit meter ... dimension: length ... transformation: identity ...
prefixes: standard ...` parses to this single definition. -/
def meterDoc : List UnitDefinition :=
  [⟨"meter", [⟨"length", 1⟩], .identity, .standard⟩]

/-- Witness for C8: the `meter` document yields exactly `meter` plus the 24
prefixed units, and its `kilometer` entry is Linear with scale 1000 and
offset 0. -/
theorem parse_standard_prefix_expansion_witness :
    parse_units_defs meterDoc =
      .ok (("meter", Unit.new_base "meter" LENGTH) ::
        SI_PREFIXES.map (fun e =>
          (e.1 ++ "meter",
            Unit.new_linear (e.1 ++ "meter") LENGTH (1 * e.2.2) 0))) ∧
    UnitRegistry.get
      (("meter", Unit.new_base "meter" LENGTH) ::
        SI_PREFIXES.map (fun e =>
          (e.1 ++ "meter",
            Unit.new_linear (e.1 ++ "meter") LENGTH (1 * e.2.2) 0)))
      "kilometer" = some (Unit.new_linear "kilometer" LENGTH 1000 0) := by
  constructor
  · exact (parse_standard_prefix_expansion "meter" [⟨"length", 1⟩] LENGTH 1
      none (by decide) rfl).1
  · have h1 : UnitRegistry.get
        (("meter", Unit.new_base "meter" LENGTH) ::
          SI_PREFIXES.map (fun e =>
            (e.1 ++ "meter",
              Unit.new_linear (e.1 ++ "meter") LENGTH (1 * e.2.2) 0)))
        "kilometer" =
        some (Unit.new_linear ("kilo" ++ "meter") LENGTH (1 * 10 ^ 3) 0) := rfl
    rw [h1]
    norm_num [Unit.new_linear]
    rfl

/-- Modelled from the spec: per the spec grammar, a document declaring two
units under the same name `meter` parses to these two definitions. -/
def dupDoc : List UnitDefinition :=
  [⟨"meter", [⟨"length", 1⟩], .identity, .no⟩,
   ⟨"meter", [⟨"length", 1⟩], .identity, .no⟩]

/-- C2 (refuted — code bug): a document that redefines an existing unit name
does not return the duplicate-name registry error as a failure value: the
parse loop unwraps the `Err` from `register`, aborting the process. -/
theorem parse_duplicate_name_aborts :
    parse_units_defs dupDoc =
      .panicked "called Result unwrap on an Err value" := by
  decide

end Arshin
